import Mathlib

/-!
Verification development for the grouptoss repository.

The definitions below are a shallow embedding of the toss lifecycle engine
(`src/toss-manager.ts`), the amount codec, the chain watcher
(`helpers/transactionMonitor.ts`) and the ERC-20 calldata helpers
(`helpers/transactions.ts`).  Stablecoin amounts are modelled as exact
rationals, minor-unit integer amounts as naturals, calldata as lists of
characters, and the effectful wallet-provider and RPC calls as explicit
oracle parameters.  Every engine operation returns, besides its result, the
chronological list of records it persisted, so that statements about the
persisted state are expressible.
-/

namespace GroupToss

/-- Toss lifecycle states, mirroring the `TossStatus` enum in `types.ts`. -/
inductive TossStatus where
  | CREATED
  | WAITING_FOR_PLAYER
  | READY
  | IN_PROGRESS
  | COMPLETED
  | CANCELLED
deriving DecidableEq, Repr

/-- A toss status is terminal when it is `COMPLETED` or `CANCELLED`. -/
def TossStatus.isTerminal : TossStatus → Bool
  | .COMPLETED => true
  | .CANCELLED => true
  | _ => false

/-- A participant record: inbox id plus the chosen option (`types.ts`). -/
structure Participant where
  inboxId : String
  option : String
deriving DecidableEq, Repr

/-- The persisted toss record (`GroupTossName` in `types.ts`).  The stake
`tossAmount` is stored as a string in the source and parsed with
`parseFloat` at every use site; it is modelled here as an exact rational.
The absent/undefined `tossOptions` array is modelled as the empty list,
matching the `toss.tossOptions?.length` guards of the source. -/
structure GroupTossName where
  id : String
  creator : String
  tossAmount : ℚ
  status : TossStatus
  participants : List String
  participantOptions : List Participant
  tossOptions : List String
  walletAddress : String
  tossResult : String
  paymentSuccess : Bool
  transactionHash : Option String
  failedWinners : List String
  failedRefunds : List String
  conversationId : Option String
deriving DecidableEq, Repr

/-- Errors thrown by the engine operations in `toss-manager.ts`, one
constructor per distinct `throw new Error(...)` site that the claims
touch. -/
inductive EngineErr where
  | invalidAmount
  | amountTooLarge
  | notFound
  | notAccepting
  | alreadyIn
  | unpaid
  | invalidOption
  | notReady
  | needsPlayers
  | noParticipantOptions
  | notEnoughUniqueOptions
  | invalidWinningOption
  | walletNotFound
  | clientNotSet
deriving DecidableEq, Repr

/-- Maximum allowed USDC amount (`MAX_USDC_AMOUNT` in the source). -/
def maxUsdcAmount : ℚ := 10

/-- Embedding of `TossManager.createGame` (`toss-manager.ts` lines 61-101).
The input amount is `none` when `parseFloat` returned `NaN`.  The fresh
toss id and escrow wallet address are ambient effects of the source and
are passed in as parameters. -/
def createGame (creator : String) (tossAmount : Option ℚ)
    (tossId walletAddress : String) (conversationId : Option String) :
    Except EngineErr GroupTossName :=
  match tossAmount with
  | none => .error .invalidAmount
  | some amount =>
    if maxUsdcAmount < amount then .error .amountTooLarge
    else .ok
      { id := tossId
        creator := creator
        tossAmount := amount
        status := .CREATED
        participants := []
        participantOptions := []
        tossOptions := []
        walletAddress := walletAddress
        tossResult := ""
        paymentSuccess := false
        transactionHash := none
        failedWinners := []
        failedRefunds := []
        conversationId := conversationId }

/-- Case folding as used by the source (`String.prototype.toLowerCase`),
modelled character-wise over the string data. -/
def strLower (s : String) : String := String.mk (s.data.map Char.toLower)

/-- Embedding of `TossManager.addPlayerToGame` (`toss-manager.ts` lines
103-142).  Returns the list of records persisted by `saveData` together
with the result; an error before the first save leaves the store
untouched. -/
def addPlayerToGame (t : GroupTossName) (player chosenOption : String)
    (hasPaid : Bool) : List GroupTossName × Except EngineErr GroupTossName :=
  if t.status ≠ .CREATED ∧ t.status ≠ .WAITING_FOR_PLAYER then
    ([], .error .notAccepting)
  else if t.participants.contains player then ([], .error .alreadyIn)
  else if hasPaid = false then ([], .error .unpaid)
  else if t.tossOptions.length ≠ 0 ∧
      (t.tossOptions.map strLower).contains (strLower chosenOption) = false then
    ([], .error .invalidOption)
  else
    let t1 := { t with
      participants := t.participants ++ [player]
      participantOptions := t.participantOptions ++ [⟨player, chosenOption⟩]
      status := .WAITING_FOR_PLAYER }
    ([t1], .ok t1)

/-- Embedding of `TossManager.joinGame` (`toss-manager.ts` lines 144-163):
the player is appended to `participants` only, with no matching entry in
`participantOptions`. -/
def joinGame (t : GroupTossName) (player : String) :
    List GroupTossName × Except EngineErr GroupTossName :=
  if t.status ≠ .CREATED ∧ t.status ≠ .WAITING_FOR_PLAYER then
    ([], .error .notAccepting)
  else if t.participants.contains player then ([], .error .alreadyIn)
  else
    let t1 := { t with
      participants := t.participants ++ [player]
      status := .WAITING_FOR_PLAYER }
    ([t1], .ok t1)

/-- Embedding of `TossManager.makePayment` (`toss-manager.ts` lines
165-197): record the sender as a participant unless already present.
Returns the new in-memory record and the list of persisted records. -/
def makePayment (t : GroupTossName) (userId chosenOption : String) :
    GroupTossName × List GroupTossName :=
  if t.participants.contains userId then (t, [])
  else
    let t1 := { t with
      participants := t.participants ++ [userId]
      participantOptions := t.participantOptions ++ [⟨userId, chosenOption⟩] }
    (t1, [t1])

/-- Folding a sequence of duplicate payment deliveries for one user through
`makePayment`, threading the persisted state (each delivery carries the
chosen option it decoded). -/
def processPayments (t : GroupTossName) (userId : String)
    (deliveries : List String) : GroupTossName :=
  deliveries.foldl (fun s opt => (makePayment s userId opt).1) t

/-- Outcome of the address lookup plus `walletService.transfer` call for
one recipient, abstracting the wallet provider: the address may be
missing, the transfer may fail (falsy result or exception), or it may
succeed, optionally yielding transaction-hash information. -/
inductive TransferOutcome where
  | noAddress
  | transferFailed
  | transferOk (hash : Option String)

/-- Accumulated result of the per-recipient transfer loop shared by
`executeToss` and `forceCloseToss`: successful recipients, failed
recipients, the first recorded hash, and every transfer call made as
`(recipient, amount, succeeded)`. -/
structure LoopState where
  succ : List String
  failed : List String
  hash : Option String
  transfers : List (String × ℚ × Bool)
deriving Repr

/-- The per-recipient transfer loop of `executeToss` (lines 278-335) and
`forceCloseToss` (lines 397-456): recipients with a falsy id are skipped
silently, a missing address or failed transfer records the id in the
failed list, and a successful transfer records it in the success list and
captures the first available hash. -/
def transferLoop (outcome : String → TransferOutcome) (amt : ℚ) :
    List String → LoopState
  | [] => ⟨[], [], none, []⟩
  | p :: rest =>
    let s := transferLoop outcome amt rest
    if p = "" then s
    else
      match outcome p with
      | .noAddress => ⟨s.succ, p :: s.failed, s.hash, s.transfers⟩
      | .transferFailed =>
          ⟨s.succ, p :: s.failed, s.hash, (p, amt, false) :: s.transfers⟩
      | .transferOk h =>
          ⟨p :: s.succ, s.failed, h.orElse (fun _ => s.hash),
            (p, amt, true) :: s.transfers⟩

/-- Result of an engine closing operation: the chronological list of
persisted records, the transfer calls made, and the returned record or
error. -/
structure ExecResult where
  saves : List GroupTossName
  transfers : List (String × ℚ × Bool)
  result : Except EngineErr GroupTossName

/-- The option list used by `executeToss`: the stored `tossOptions` when
nonempty, otherwise the deduplicated participant picks (lines 219-221). -/
def execOptions (t : GroupTossName) : List String :=
  if t.tossOptions.length ≠ 0 then t.tossOptions
  else (t.participantOptions.map Participant.option).eraseDups

/-- Case-insensitive lookup of the declared winning option among the
available options (lines 231-233). -/
def execMatching (t : GroupTossName) (winningOption : String) : Option String :=
  (execOptions t).find? (fun o => strLower o == strLower winningOption)

/-- The winners of a toss: participants whose pick case-insensitively
matches the winning option (lines 244-246). -/
def execWinners (t : GroupTossName) (matching : String) : List Participant :=
  t.participantOptions.filter (fun p => strLower p.option == strLower matching)

/-- Embedding of `TossManager.executeToss` (`toss-manager.ts` lines
199-352).  `walletFound` models whether `walletService.getWallet(tossId)`
returns a wallet, `clientSet` whether the XMTP client was set, and
`outcome` the address lookup plus transfer for each winner. -/
def executeToss (walletFound clientSet : Bool)
    (outcome : String → TransferOutcome) (t : GroupTossName)
    (winningOption : String) : ExecResult :=
  if t.status ≠ .WAITING_FOR_PLAYER then ⟨[], [], .error .notReady⟩
  else if t.participants.length < 1 then ⟨[], [], .error .needsPlayers⟩
  else if t.participantOptions.length = 0 then
    ⟨[], [], .error .noParticipantOptions⟩
  else if (execOptions t).length < 1 then
    ⟨[], [], .error .notEnoughUniqueOptions⟩
  else
    let t1 := { t with status := TossStatus.IN_PROGRESS }
    match execMatching t winningOption with
    | none =>
      let t2 := { t1 with status := TossStatus.CANCELLED, paymentSuccess := false }
      ⟨[t1, t2], [], .error .invalidWinningOption⟩
    | some matching =>
      let t2 := { t1 with tossResult := matching }
      let winners := execWinners t matching
      if winners.length = 0 then
        let t3 := { t2 with status := TossStatus.COMPLETED, paymentSuccess := true }
        ⟨[t1, t3], [], .ok t3⟩
      else if walletFound = false then
        let t3 := { t2 with status := TossStatus.CANCELLED, paymentSuccess := false }
        ⟨[t1, t3], [], .error .walletNotFound⟩
      else if clientSet = false then ⟨[t1], [], .error .clientNotSet⟩
      else
        let totalPot := t.tossAmount * t.participants.length
        let prize := totalPot / winners.length
        let loop := transferLoop outcome prize (winners.map Participant.inboxId)
        let t3 := { t2 with
          paymentSuccess := decide (0 < loop.succ.length)
          status := TossStatus.COMPLETED
          transactionHash :=
            if loop.hash.isSome then loop.hash else t2.transactionHash
          failedWinners :=
            if 0 < loop.failed.length then loop.failed else t2.failedWinners }
        ⟨[t1, t3], loop.transfers, .ok t3⟩

/-- Embedding of `TossManager.forceCloseToss` (`toss-manager.ts` lines
359-469).  Note that the source performs no terminal-state check: the
record is unconditionally set to `IN_PROGRESS` and persisted before
anything else. -/
def forceCloseToss (walletFound clientSet : Bool)
    (outcome : String → TransferOutcome) (t : GroupTossName) : ExecResult :=
  let t1 := { t with status := TossStatus.IN_PROGRESS }
  if t.participants.length = 0 then
    let t2 := { t1 with
      status := TossStatus.CANCELLED
      paymentSuccess := true
      tossResult := "FORCE_CLOSED" }
    ⟨[t1, t2], [], .ok t2⟩
  else if walletFound = false then
    let t2 := { t1 with status := TossStatus.CANCELLED, paymentSuccess := false }
    ⟨[t1, t2], [], .error .walletNotFound⟩
  else if clientSet = false then ⟨[t1], [], .error .clientNotSet⟩
  else
    let loop := transferLoop outcome t.tossAmount t.participants
    let t2 := { t1 with
      paymentSuccess := true
      status := TossStatus.CANCELLED
      tossResult := "FORCE_CLOSED"
      transactionHash :=
        if t.transactionHash.isSome then t.transactionHash else loop.hash
      failedRefunds :=
        if 0 < loop.failed.length then loop.failed else t1.failedRefunds }
    ⟨[t1, t2], loop.transfers, .ok t2⟩

/-- Result of dispatching the `close` chat command: either an immediate
reply string with no engine call, or the result of the engine operation
that ran. -/
inductive CloseOutcome where
  | reply (msg : String)
  | engine (r : ExecResult)

/-- Embedding of the `close` branch of
`TossManager.handleExplicitCommand` (`toss-manager.ts` lines 688-728).
`activeToss` is the result of `getActiveTossForConversation`; joining the
argument words with spaces yields the declared winning option, and an
empty string is falsy in the source, selecting a force close. -/
def handleCloseCommand (walletFound clientSet : Bool)
    (outcome : String → TransferOutcome) (activeToss : Option GroupTossName)
    (inboxId : String) (args : List String) : CloseOutcome :=
  match activeToss with
  | none => .reply "No active toss found in this group."
  | some toss =>
    if inboxId ≠ toss.creator then
      .reply "Only the toss creator can close the toss."
    else
      let winningOption :=
        if 0 < args.length then String.intercalate " " args else ""
      if toss.participants.length < 2 ∧ winningOption ≠ "" then
        .reply "Not enough participants to determine a winner."
      else if winningOption = "" then
        .engine (forceCloseToss walletFound clientSet outcome toss)
      else
        .engine (executeToss walletFound clientSet outcome toss winningOption)

/-- The toss record invariant on the parallel lists: `participants` and
`participantOptions` have equal length. -/
def lenEq (t : GroupTossName) : Prop :=
  t.participants.length = t.participantOptions.length

/-- The toss record invariant on recorded picks: every recorded option is
case-insensitively one of the toss options. -/
def optionsValid (t : GroupTossName) : Prop :=
  ∀ p ∈ t.participantOptions,
    (t.tossOptions.map strLower).contains (strLower p.option) = true

/-- Minor units of a decimal stake: `Math.floor(parseFloat(amount) * 10^6)`
in `createJoinTossWalletSendCalls` (`toss-manager.ts` line 775). -/
def stakeToMinor (stake : ℚ) : ℕ := (stake * 10 ^ 6).floor.toNat

/-- The amount sent to join a toss with the option choice encoded in the
low decimal digit: minor units of the stake plus `optionIndex + 1`
(`toss-manager.ts` lines 788-802). -/
def encodeJoinAmount (stake : ℚ) (optionIndex : ℕ) : ℕ :=
  stakeToMinor stake + (optionIndex + 1)

/-- Embedding of `TossManager.extractOptionFromTransferAmount`
(`toss-manager.ts` lines 1111-1156): the remainder of the received amount
modulo 10, computed as `amount - floor(amount / 10) * 10`, selects the
`remainder - 1`-st toss option when the remainder is between 1 and 5 and
the index is in range. -/
def extractOptionFromTransferAmount (amount : ℕ) (tossOptions : List String) :
    Option String :=
  let baseAmount := amount / 10 * 10
  let remainder := amount - baseAmount
  if 1 ≤ remainder ∧ remainder ≤ 5 then
    if tossOptions.length = 0 then none
    else
      let optionIndex := remainder - 1
      if optionIndex < tossOptions.length then tossOptions[optionIndex]?
      else none
  else none

/-- A Transfer log entry as surfaced by the chain RPC
(`TransactionEvent` in `transactionMonitor.ts`). -/
structure TransactionEvent where
  hash : String
  txFrom : String
  txTo : String
  value : ℕ
  blockNumber : ℕ
deriving DecidableEq, Repr

/-- The `getLogs` RPC call of `checkWalletTransactions`: all Transfer
events of the chain whose recipient matches and whose block number lies in
the inclusive range `[fromBlock, toBlock]`. -/
def getLogs (chain : List TransactionEvent) (toAddr : String)
    (fromBlock toBlock : ℕ) : List TransactionEvent :=
  chain.filter fun e =>
    decide (e.txTo = toAddr ∧ fromBlock ≤ e.blockNumber ∧ e.blockNumber ≤ toBlock)

/-- A monitored escrow wallet with its per-wallet checkpoint
(`MonitoredWallet` in `transactionMonitor.ts`). -/
structure MonitoredWallet where
  address : String
  tossId : String
  lastCheckedBlock : Option ℕ
deriving DecidableEq, Repr

/-- Embedding of `TransactionMonitor.addWalletToMonitor`
(`transactionMonitor.ts` lines 62-78): the checkpoint starts at the
current head block. -/
def addWalletToMonitor (currentBlock : ℕ) (address tossId : String) :
    MonitoredWallet :=
  { address := strLower address, tossId := tossId
    lastCheckedBlock := some currentBlock }

/-- The base block of a wallet scan
(`wallet.lastCheckedBlock || currentBlock - 100n`): a missing checkpoint,
or the falsy checkpoint `0`, falls back to a 100-block lookback. -/
def scanFromBlock (w : MonitoredWallet) (currentBlock : ℕ) : ℕ :=
  match w.lastCheckedBlock with
  | some b => if b = 0 then currentBlock - 100 else b
  | none => currentBlock - 100

/-- Embedding of `TransactionMonitor.checkWalletTransactions`
(`transactionMonitor.ts` lines 170-230).  `scanOk` models whether the
`getLogs` RPC call succeeds; on failure the error is caught, nothing is
reported and the checkpoint is left unchanged; on success every log in
`(base, head]` is reported and the checkpoint becomes the head.  Callback
errors are caught per log and do not affect the checkpoint. -/
def checkWalletTransactions (chain : List TransactionEvent) (scanOk : Bool)
    (w : MonitoredWallet) (currentBlock : ℕ) :
    MonitoredWallet × List TransactionEvent :=
  if scanOk then
    let fromBlock := scanFromBlock w currentBlock
    let logs := getLogs chain w.address (fromBlock + 1) currentBlock
    ({ w with lastCheckedBlock := some currentBlock }, logs)
  else (w, [])

/-- A sequence of polling ticks for one monitored wallet: each tick carries
the head block read at its start and whether the per-wallet scan
succeeded; the reported events of all ticks are concatenated. -/
def runTicks (chain : List TransactionEvent) (w : MonitoredWallet)
    (ticks : List (ℕ × Bool)) : MonitoredWallet × List TransactionEvent :=
  ticks.foldl
    (fun acc tick =>
      let step := checkWalletTransactions chain tick.2 acc.1 tick.1
      (step.1, acc.2 ++ step.2))
    (w, [])

/-- Hexadecimal value of a character, as accepted by `BigInt("0x" + s)`:
both lowercase and uppercase digits parse; anything else throws.  The
value is computed from the code point: `0`-`9` are 48-57, `a`-`f` are
97-102, `A`-`F` are 65-70. -/
def hexVal? (c : Char) : Option ℕ :=
  if 48 ≤ c.toNat ∧ c.toNat ≤ 57 then some (c.toNat - 48)
  else if 97 ≤ c.toNat ∧ c.toNat ≤ 102 then some (c.toNat - 87)
  else if 65 ≤ c.toNat ∧ c.toNat ≤ 70 then some (c.toNat - 55)
  else none

/-- Lowercase hexadecimal digit character for a digit value, as produced
by `BigInt.prototype.toString(16)`: code point 48 + d for digits below
ten, 87 + d for the letter digits. -/
def hexChar (d : ℕ) : Char :=
  if d < 10 then Char.ofNat (48 + d) else Char.ofNat (87 + d)

/-- Hexadecimal rendering of a natural number:
`BigInt(n).toString(16)` — lowercase, no leading zeros, and `"0"` for
zero. -/
def toHexString (n : ℕ) : List Char :=
  if n = 0 then ['0'] else ((Nat.digits 16 n).map hexChar).reverse

/-- Parsing of `BigInt("0x" + l)`: fails on the empty string or on any
non-hex character, otherwise folds the digits most-significant first. -/
def parseHexNat? (l : List Char) : Option ℕ :=
  if l.length = 0 then none
  else if l.all (fun c => (hexVal? c).isSome) then
    some (l.foldl (fun a c => 16 * a + (hexVal? c).getD 0) 0)
  else none

/-- JavaScript `String.prototype.padStart(len, c)` on a character list. -/
def leftPad (len : ℕ) (c : Char) (l : List Char) : List Char :=
  List.replicate (len - l.length) c ++ l

/-- The ERC-20 `transfer(address,uint256)` method selector, with the `0x`
prefix as it appears in the calldata string. -/
def transferSelector : List Char :=
  ['0', 'x', 'a', '9', '0', '5', '9', 'c', 'b', 'b']

/-- Embedding of the calldata construction of `createUSDCTransferCalls`
(`transactions.ts` lines 130-180), modelling the `calls[0].data` field of
the produced payload: the amount guard rejects amounts above
`MAX_USDC_AMOUNT` USDC, and the data is the selector followed by the
zero-padded recipient address (without its `0x` prefix) and the
zero-padded hexadecimal amount. -/
def createUSDCTransferCalls (recipientAddress : List Char) (amount : ℕ) :
    Option (List Char) :=
  if 10 * 10 ^ 6 < amount then none
  else some (transferSelector ++ leftPad 64 '0' (recipientAddress.drop 2) ++
    leftPad 64 '0' (toHexString amount))

/-- The recipient/amount pair extracted from ERC-20 transfer calldata
(`ERC20TransferData` in `types.ts`). -/
structure ERC20TransferData where
  recipient : List Char
  amount : ℕ
deriving DecidableEq, Repr

/-- Embedding of `extractERC20TransferData` (`transactions.ts` lines
99-125): require the transfer selector, slice out characters 10-74 for the
recipient (keeping the last 40) and characters 74-138 for the amount; a
failing `BigInt` parse is caught and yields `none`. -/
def extractERC20TransferData (txData : List Char) : Option ERC20TransferData :=
  if txData.take 10 = transferSelector then
    let recipientHex := ['0', 'x'] ++ (txData.drop 10).take 64
    let recipient := ['0', 'x'] ++ recipientHex.drop (recipientHex.length - 40)
    let amountHex := (txData.drop 74).take 64
    match parseHexNat? amountHex with
    | some a => some ⟨recipient, a⟩
    | none => none
  else none

/-! ### C6: stake validation in `createGame` -/

/-- C6 counterexample: `createGame` accepts a zero stake and a negative
stake, refuting the claim that a zero or negative stake is rejected.  The
source validates only `isNaN` and `amount > MAX_USDC_AMOUNT`. -/
theorem C6_counterexample :
    (createGame "creator" (some 0) "1" "0xwallet" none).isOk = true ∧
    (createGame "creator" (some (-1)) "1" "0xwallet" none).isOk = true := by
  exact ⟨rfl, rfl⟩

/-- C6 (amended): `createGame` rejects a non-numeric stake, rejects a stake
strictly above 10 USDC with the amount-too-large error, and accepts every
stake at most 10 — including zero and negative stakes, which are not
validated. -/
theorem C6_create_amount_validation (creator tossId walletAddress : String)
    (conversationId : Option String) :
    (createGame creator none tossId walletAddress conversationId =
      .error .invalidAmount) ∧
    (∀ a : ℚ, maxUsdcAmount < a →
      createGame creator (some a) tossId walletAddress conversationId =
        .error .amountTooLarge) ∧
    (∀ a : ℚ, a ≤ maxUsdcAmount →
      (createGame creator (some a) tossId walletAddress conversationId).isOk =
        true) := by
  refine ⟨rfl, fun a ha => ?_, fun a ha => ?_⟩
  · simp [createGame, ha]
  · simp [createGame, not_lt.2 ha, Except.isOk, Except.toBool]

/-- C6 witness: the amended validation theorem applied at the stakes 11
(rejected) and 10 (accepted), and at a non-numeric stake. -/
theorem C6_create_amount_validation_witness :
    (createGame "c" none "1" "0xw" none = .error .invalidAmount) ∧
    (createGame "c" (some 11) "1" "0xw" none = .error .amountTooLarge) ∧
    ((createGame "c" (some 10) "1" "0xw" none).isOk = true) := by
  obtain ⟨h1, h2, h3⟩ := C6_create_amount_validation "c" "1" "0xw" none
  exact ⟨h1, h2 11 (by norm_num [maxUsdcAmount]),
    h3 10 (by norm_num [maxUsdcAmount])⟩

/-! ### C2: amount-codec round trip -/

/-- When the stake times one million is a natural number, the minor-unit
conversion yields exactly that number. -/
theorem stakeToMinor_natCast (n : ℕ) (q : ℚ) (h : q * 10 ^ 6 = (n : ℚ)) :
    stakeToMinor q = n := by
  unfold stakeToMinor
  rw [h, Rat.floor_def']
  simp

/-- C2 counterexample: for the in-range stake 0.000001 USDC the round trip
fails — encoding option index 0 gives minor-unit amount 2, whose remainder
decodes to option index 1.  The claimed round trip only holds when the
minor-unit stake is a multiple of 10. -/
theorem C2_counterexample :
    extractOptionFromTransferAmount
      (encodeJoinAmount ((1 : ℚ) / 1000000) 0) ["yes", "no"] = some "no" := by
  have he : encodeJoinAmount ((1 : ℚ) / 1000000) 0 = 2 := by
    rw [encodeJoinAmount, stakeToMinor_natCast 1 _ (by norm_num)]
  rw [he]
  decide

/-- C2 (amended): for option index `i ∈ {0,1}` and any stake with
`0 < stake ≤ 10` whose minor-unit value `floor(stake × 10⁶)` is a multiple
of 10, decoding the encoded amount against a two-option toss recovers
exactly the option at index `i`. -/
theorem C2_codec_roundtrip (stake : ℚ) (i : ℕ) (os : List String)
    (hpos : 0 < stake) (hmax : stake ≤ 10)
    (hgran : stakeToMinor stake % 10 = 0) (hi : i < 2) (hos : os.length = 2) :
    extractOptionFromTransferAmount (encodeJoinAmount stake i) os = os[i]? := by
  have key : ∀ a : ℕ, a = stakeToMinor stake + (i + 1) →
      extractOptionFromTransferAmount a os = os[i]? := by
    intro a ha
    have h1 : a - a / 10 * 10 = i + 1 := by omega
    unfold extractOptionFromTransferAmount
    dsimp only
    rw [h1, if_pos (by omega), if_neg (by omega), if_pos (by omega)]
    simp
  exact key _ rfl

/-- C2 witness: the amended round trip at stake 1 USDC and option index 0,
where the encoded amount is 1000001 and decoding yields the first
option. -/
theorem C2_codec_roundtrip_witness :
    extractOptionFromTransferAmount
      (encodeJoinAmount (1 : ℚ) 0) ["yes", "no"] = ["yes", "no"][0]? :=
  C2_codec_roundtrip 1 0 ["yes", "no"] (by norm_num) (by norm_num)
    (by rw [stakeToMinor_natCast 1000000 1 (by norm_num)])
    (by decide) (by decide)

/-! ### C8: duplicate payment deliveries are idempotent -/

/-- Under a lawful `BEq`, `contains` coincides with membership. -/
theorem contains_eq_mem (l : List String) (a : String) :
    l.contains a = decide (a ∈ l) :=
  List.elem_eq_mem a l

/-- One `makePayment` delivery leaves the multiplicity of an already
recorded sender unchanged and raises the multiplicity of a new sender from
zero to one. -/
theorem makePayment_count (t : GroupTossName) (u opt : String) :
    (makePayment t u opt).1.participants.count u =
      if u ∈ t.participants then t.participants.count u
      else t.participants.count u + 1 := by
  unfold makePayment
  rw [contains_eq_mem]
  by_cases h : u ∈ t.participants <;> simp [h, List.count_append]

/-- Once a sender is recorded exactly once, any further sequence of
payment deliveries keeps the multiplicity at one. -/
theorem processPayments_count_one (u : String) (ds : List String)
    (t : GroupTossName) (h1 : t.participants.count u = 1) :
    (processPayments t u ds).participants.count u = 1 := by
  induction ds generalizing t with
  | nil => exact h1
  | cons d ds ih =>
    have hmem : u ∈ t.participants := by
      have := List.count_pos_iff.mp (by omega : 0 < t.participants.count u)
      exact this
    have hstep : (makePayment t u d).1.participants.count u = 1 := by
      rw [makePayment_count, if_pos hmem]; exact h1
    exact ih _ hstep

/-- C8: processing any nonempty sequence of (duplicate) payment deliveries
for a sender not yet recorded on the toss leaves the sender recorded
exactly once in `participants` — at-least-once delivery is idempotent. -/
theorem C8_duplicate_payment_idempotent (t : GroupTossName) (userId : String)
    (deliveries : List String) (h0 : t.participants.count userId = 0)
    (hne : deliveries ≠ []) :
    (processPayments t userId deliveries).participants.count userId = 1 := by
  cases deliveries with
  | nil => exact absurd rfl hne
  | cons d ds =>
    have hnotmem : userId ∉ t.participants := by
      intro hmem
      have := List.count_pos_iff.mpr hmem
      omega
    have hstep : (makePayment t userId d).1.participants.count userId = 1 := by
      rw [makePayment_count, if_neg hnotmem, h0]
    exact processPayments_count_one userId ds _ hstep

/-- C8 witness: a toss with one existing participant receives the same
payment for a new sender three times; the sender ends up recorded exactly
once. -/
theorem C8_duplicate_payment_idempotent_witness :
    (processPayments
      { id := "1", creator := "bob", tossAmount := 1,
        status := .WAITING_FOR_PLAYER, participants := ["bob"],
        participantOptions := [⟨"bob", "yes"⟩], tossOptions := ["yes", "no"],
        walletAddress := "0xesc", tossResult := "", paymentSuccess := false,
        transactionHash := none, failedWinners := [], failedRefunds := [],
        conversationId := some "g" }
      "alice" ["yes", "yes", "yes"]).participants.count "alice" = 1 :=
  C8_duplicate_payment_idempotent _ "alice" ["yes", "yes", "yes"]
    (by decide) (by decide)

/-! ### C1: terminal tosses and engine mutations -/

/-- A completed (terminal) toss, used to exhibit the missing terminal-state
guard of `forceCloseToss`. -/
def completedToss : GroupTossName :=
  { id := "7", creator := "bob", tossAmount := 1, status := .COMPLETED,
    participants := [], participantOptions := [],
    tossOptions := ["yes", "no"], walletAddress := "0xesc",
    tossResult := "yes", paymentSuccess := true, transactionHash := none,
    failedWinners := [], failedRefunds := [], conversationId := none }

/-- C1 counterexample: `forceCloseToss` performs no terminal-state check —
applied to a COMPLETED toss it persists two further records and rewrites
the record to CANCELLED with result FORCE_CLOSED, refuting the claim that
every engine mutation on a terminal toss is rejected with the record left
unchanged. -/
theorem C1_counterexample :
    (forceCloseToss true true (fun _ => .transferOk none)
      completedToss).saves =
      [{ completedToss with status := .IN_PROGRESS },
       { completedToss with
          status := .CANCELLED
          paymentSuccess := true
          tossResult := "FORCE_CLOSED" }] ∧
    (forceCloseToss true true (fun _ => .transferOk none)
      completedToss).result.toOption =
      some { completedToss with
        status := .CANCELLED
        paymentSuccess := true
        tossResult := "FORCE_CLOSED" } := by
  exact ⟨rfl, rfl⟩

/-- C1 (amended): for every toss in a terminal state (COMPLETED or
CANCELLED), the engine mutations AddParticipant (`addPlayerToGame`) and
Close (`executeToss`) are rejected with an error before anything is
persisted, so the stored record is unchanged; ForceClose carries no
terminal-state guard and does mutate a terminal toss. -/
theorem C1_terminal_rejection (t : GroupTossName)
    (h : t.status.isTerminal = true) (player chosenOption : String)
    (hasPaid : Bool) (walletFound clientSet : Bool)
    (outcome : String → TransferOutcome) (winningOption : String) :
    addPlayerToGame t player chosenOption hasPaid =
      ([], .error .notAccepting) ∧
    executeToss walletFound clientSet outcome t winningOption =
      ⟨[], [], .error .notReady⟩ := by
  have hs : t.status = .COMPLETED ∨ t.status = .CANCELLED := by
    cases hst : t.status <;> simp [TossStatus.isTerminal, hst] at h ⊢
  constructor
  · unfold addPlayerToGame
    rcases hs with h' | h' <;> rw [if_pos (by rw [h']; exact ⟨by simp, by simp⟩)]
  · unfold executeToss
    rcases hs with h' | h' <;> rw [if_pos (by rw [h']; simp)]

/-- C1 witness: the amended rejection theorem applied to the concrete
completed toss. -/
theorem C1_terminal_rejection_witness :
    addPlayerToGame completedToss "alice" "yes" true =
      ([], .error .notAccepting) ∧
    executeToss true true (fun _ => .transferOk none) completedToss "yes" =
      ⟨[], [], .error .notReady⟩ :=
  C1_terminal_rejection completedToss rfl "alice" "yes" true true true
    (fun _ => .transferOk none) "yes"

/-! ### C3: the parallel-lists and valid-options invariants -/

/-- A freshly created toss with two options and no participants. -/
def freshToss : GroupTossName :=
  { id := "3", creator := "bob", tossAmount := 1, status := .CREATED,
    participants := [], participantOptions := [],
    tossOptions := ["yes", "no"], walletAddress := "0xesc",
    tossResult := "", paymentSuccess := false, transactionHash := none,
    failedWinners := [], failedRefunds := [], conversationId := none }

/-- C3 counterexample: `joinGame` appends the player to `participants`
without a matching `participantOptions` entry, so on a fresh toss it
produces a persisted record with list lengths 1 and 0, refuting the claim
that every mutating engine operation preserves the equal-length
invariant. -/
theorem C3_counterexample :
    ((joinGame freshToss "alice").2.toOption.map
      GroupTossName.participants) = some ["alice"] ∧
    ((joinGame freshToss "alice").2.toOption.map
      GroupTossName.participantOptions) = some [] := by
  exact ⟨rfl, rfl⟩

/-- Every record persisted by `executeToss` carries the same
`participants`, `participantOptions` and `tossOptions` as its input: the
closing path rewrites only status, result and payment bookkeeping. -/
theorem executeToss_saves_fields (walletFound clientSet : Bool)
    (outcome : String → TransferOutcome) (t : GroupTossName) (wo : String) :
    ∀ t' ∈ (executeToss walletFound clientSet outcome t wo).saves,
      t'.participants = t.participants ∧
      t'.participantOptions = t.participantOptions ∧
      t'.tossOptions = t.tossOptions := by
  intro t' ht'
  unfold executeToss at ht'
  dsimp only at ht'
  repeat' split at ht'
  all_goals
    first
      | (simp at ht'
         rcases ht' with h | h <;> subst h <;> exact ⟨rfl, rfl, rfl⟩)
      | (simp at ht'
         subst ht'
         exact ⟨rfl, rfl, rfl⟩)
      | simp at ht'

/-- Every record persisted by `forceCloseToss` carries the same
`participants`, `participantOptions` and `tossOptions` as its input. -/
theorem forceCloseToss_saves_fields (walletFound clientSet : Bool)
    (outcome : String → TransferOutcome) (t : GroupTossName) :
    ∀ t' ∈ (forceCloseToss walletFound clientSet outcome t).saves,
      t'.participants = t.participants ∧
      t'.participantOptions = t.participantOptions ∧
      t'.tossOptions = t.tossOptions := by
  intro t' ht'
  unfold forceCloseToss at ht'
  dsimp only at ht'
  repeat' split at ht'
  all_goals
    first
      | (simp at ht'
         rcases ht' with h | h <;> subst h <;> exact ⟨rfl, rfl, rfl⟩)
      | (simp at ht'
         subst ht'
         exact ⟨rfl, rfl, rfl⟩)
      | simp at ht'

/-- C3 (amended): on a toss satisfying the invariants and carrying a
nonempty options list, `addPlayerToGame` persists only records satisfying
both invariants; `makePayment` preserves the equal-length invariant (it
performs no option validation); and `executeToss` and `forceCloseToss`
leave all three lists untouched in every record they persist.  `joinGame`
is excluded: it breaks the equal-length invariant. -/
theorem C3_invariants_preserved (t : GroupTossName) (hLen : lenEq t)
    (hOpt : optionsValid t) (hOptions : t.tossOptions ≠ [])
    (player chosenOption userId payOption : String) (hasPaid : Bool)
    (walletFound clientSet : Bool) (outcome : String → TransferOutcome)
    (wo : String) :
    (∀ t' ∈ (addPlayerToGame t player chosenOption hasPaid).1,
      lenEq t' ∧ optionsValid t') ∧
    lenEq (makePayment t userId payOption).1 ∧
    (∀ t' ∈ (executeToss walletFound clientSet outcome t wo).saves,
      lenEq t' ∧ optionsValid t') ∧
    (∀ t' ∈ (forceCloseToss walletFound clientSet outcome t).saves,
      lenEq t' ∧ optionsValid t') := by
  refine ⟨?_, ?_, ?_, ?_⟩
  · intro t' ht'
    unfold addPlayerToGame at ht'
    split at ht'
    · simp at ht'
    split at ht'
    · simp at ht'
    split at ht'
    · simp at ht'
    split at ht'
    · simp at ht'
    · next hguard =>
      simp at ht'
      subst ht'
      constructor
      · simp [lenEq] at hLen ⊢
        exact hLen
      · intro p hp
        simp at hp
        rcases hp with hp | hp
        · exact hOpt p hp
        · subst hp
          have hlen0 : t.tossOptions.length ≠ 0 := by
            simpa [List.length_eq_zero] using hOptions
          rcases not_and_or.mp hguard with h | h
          · exact absurd hlen0 (by simpa using h)
          · simpa using h
  · unfold makePayment
    split
    · exact hLen
    · simp [lenEq] at hLen ⊢
      exact hLen
  · intro t' ht'
    obtain ⟨h1, h2, h3⟩ :=
      executeToss_saves_fields walletFound clientSet outcome t wo t' ht'
    exact ⟨by rw [lenEq, h1, h2]; exact hLen,
      fun p hp => by rw [h3]; exact hOpt p (h2 ▸ hp)⟩
  · intro t' ht'
    obtain ⟨h1, h2, h3⟩ :=
      forceCloseToss_saves_fields walletFound clientSet outcome t t' ht'
    exact ⟨by rw [lenEq, h1, h2]; exact hLen,
      fun p hp => by rw [h3]; exact hOpt p (h2 ▸ hp)⟩

/-- C3 witness: the amended preservation theorem applied to the concrete
fresh toss with options, a joining player, and a payment delivery. -/
theorem C3_invariants_preserved_witness :
    (∀ t' ∈ (addPlayerToGame freshToss "alice" "yes" true).1,
      lenEq t' ∧ optionsValid t') ∧
    lenEq (makePayment freshToss "carol" "no").1 ∧
    (∀ t' ∈ (executeToss true true (fun _ => .transferOk none) freshToss
        "yes").saves, lenEq t' ∧ optionsValid t') ∧
    (∀ t' ∈ (forceCloseToss true true (fun _ => .transferOk none)
        freshToss).saves, lenEq t' ∧ optionsValid t') :=
  C3_invariants_preserved freshToss rfl
    (by intro p hp; simp [freshToss] at hp)
    (by simp [freshToss]) "alice" "yes" "carol" "no" true true true
    (fun _ => .transferOk none) "yes"

/-! ### C7: `close` with a declared winner needs two participants -/

/-- C7: dispatching the `close` command with a declared winning option on
a toss with fewer than two participants replies with the
not-enough-participants message and performs no engine call, so the toss
is not moved to COMPLETED and nothing is persisted. -/
theorem C7_close_requires_two_participants (walletFound clientSet : Bool)
    (outcome : String → TransferOutcome) (toss : GroupTossName)
    (inboxId : String) (args : List String)
    (hcreator : inboxId = toss.creator) (hargs : 0 < args.length)
    (hjoin : String.intercalate " " args ≠ "")
    (hfew : toss.participants.length < 2) :
    handleCloseCommand walletFound clientSet outcome (some toss) inboxId
      args = .reply "Not enough participants to determine a winner." := by
  unfold handleCloseCommand
  dsimp only
  rw [if_neg (show ¬inboxId ≠ toss.creator from fun h => h hcreator),
    if_pos hargs]
  exact if_pos ⟨hfew, hjoin⟩

/-- C7 witness: the close guard applied to a concrete one-participant toss
whose creator declares the winning option "yes". -/
theorem C7_close_requires_two_participants_witness :
    handleCloseCommand true true (fun _ => .transferOk none)
      (some { freshToss with
        participants := ["bob"]
        participantOptions := [⟨"bob", "yes"⟩]
        status := .WAITING_FOR_PLAYER }) "bob" ["yes"] =
      .reply "Not enough participants to determine a winner." :=
  C7_close_requires_two_participants true true (fun _ => .transferOk none)
    _ "bob" ["yes"] rfl (by decide) (by decide) (by decide)

/-! ### Transfer-loop lemmas shared by the distribution claims -/

/-- The successful transfers of the loop are exactly the success list,
each with the loop amount. -/
theorem transferLoop_success_transfers (outcome : String → TransferOutcome)
    (amt : ℚ) (ids : List String) :
    ((transferLoop outcome amt ids).transfers.filter
      (fun c => c.2.2)).map (fun c => (c.1, c.2.1)) =
      (transferLoop outcome amt ids).succ.map (fun p => (p, amt)) := by
  induction ids with
  | nil => rfl
  | cons p rest ih =>
    unfold transferLoop
    dsimp only
    split
    · exact ih
    · split <;> simp [ih]

/-- The sum of the amounts of the successful transfers equals the number
of successful recipients times the loop amount. -/
theorem transferLoop_success_sum (outcome : String → TransferOutcome)
    (amt : ℚ) (ids : List String) :
    (((transferLoop outcome amt ids).transfers.filter
      (fun c => c.2.2)).map (fun c => c.2.1)).sum =
      (transferLoop outcome amt ids).succ.length * amt := by
  induction ids with
  | nil => simp [transferLoop]
  | cons p rest ih =>
    unfold transferLoop
    dsimp only
    split
    · exact ih
    · split <;> simp [ih] <;> push_cast <;> ring

/-- Every transfer call made by the loop carries the loop amount. -/
theorem transferLoop_transfer_amounts (outcome : String → TransferOutcome)
    (amt : ℚ) (ids : List String) :
    ∀ c ∈ (transferLoop outcome amt ids).transfers, c.2.1 = amt := by
  induction ids with
  | nil => intro c hc; simp [transferLoop] at hc
  | cons p rest ih =>
    intro c hc
    unfold transferLoop at hc
    dsimp only at hc
    split at hc
    · exact ih c hc
    · split at hc
      · exact ih c hc
      · simp at hc
        rcases hc with hc | hc
        · rw [hc]
        · exact ih c hc
      · simp at hc
        rcases hc with hc | hc
        · rw [hc]
        · exact ih c hc

/-- When no recipient id is falsy, every recipient ends in exactly one of
the success or failed lists. -/
theorem transferLoop_counts (outcome : String → TransferOutcome) (amt : ℚ)
    (ids : List String) (h : ∀ p ∈ ids, p ≠ "") :
    (transferLoop outcome amt ids).succ.length +
      (transferLoop outcome amt ids).failed.length = ids.length := by
  induction ids with
  | nil => rfl
  | cons p rest ih =>
    have hp : p ≠ "" := h p (List.mem_cons_self p rest)
    have hrest := ih (fun q hq => h q (List.mem_cons_of_mem p hq))
    unfold transferLoop
    dsimp only
    rw [if_neg hp]
    cases outcome p <;> simp <;> omega

/-- The loop records a positive success count exactly when some transfer
call in its log succeeded. -/
theorem transferLoop_success_iff (outcome : String → TransferOutcome)
    (amt : ℚ) (ids : List String) :
    0 < (transferLoop outcome amt ids).succ.length ↔
      ∃ c ∈ (transferLoop outcome amt ids).transfers, c.2.2 = true := by
  have h := transferLoop_success_transfers outcome amt ids
  have hlen := congrArg List.length h
  simp only [List.length_map] at hlen
  constructor
  · intro hpos
    have hne : (transferLoop outcome amt ids).transfers.filter
        (fun c => c.2.2) ≠ [] := by
      intro hnil
      rw [hnil] at hlen
      simp at hlen
      omega
    obtain ⟨c, hc⟩ := List.exists_mem_of_ne_nil _ hne
    refine ⟨c, List.mem_of_mem_filter hc, ?_⟩
    simpa using List.of_mem_filter hc
  · rintro ⟨c, hc, hflag⟩
    have hmem : c ∈ (transferLoop outcome amt ids).transfers.filter
        (fun c => c.2.2) := List.mem_filter.mpr ⟨hc, by simp [hflag]⟩
    have := List.length_pos.mpr (List.ne_nil_of_mem hmem)
    omega

/-- The per-winner prize of `executeToss`: total pot divided by the number
of winners. -/
def execPrize (t : GroupTossName) (m : String) : ℚ :=
  t.tossAmount * t.participants.length / (execWinners t m).length

/-- The final record persisted by `executeToss` on the distribution
path. -/
def execCloseRecord (outcome : String → TransferOutcome)
    (t : GroupTossName) (m : String) : GroupTossName :=
  let loop := transferLoop outcome (execPrize t m)
    ((execWinners t m).map Participant.inboxId)
  { t with
    status := TossStatus.COMPLETED
    tossResult := m
    paymentSuccess := decide (0 < loop.succ.length)
    transactionHash :=
      if loop.hash.isSome then loop.hash else t.transactionHash
    failedWinners :=
      if 0 < loop.failed.length then loop.failed else t.failedWinners }

/-- On a waiting toss with participants, a matching winning option and at
least one winner, `executeToss` runs the distribution loop and completes
the toss. -/
theorem executeToss_run (outcome : String → TransferOutcome)
    (t : GroupTossName) (wo m : String)
    (hstatus : t.status = .WAITING_FOR_PLAYER)
    (hparts : t.participants ≠ [])
    (hmatch : execMatching t wo = some m)
    (hwin : execWinners t m ≠ []) :
    executeToss true true outcome t wo =
      ⟨[{ t with status := TossStatus.IN_PROGRESS },
        execCloseRecord outcome t m],
       (transferLoop outcome (execPrize t m)
         ((execWinners t m).map Participant.inboxId)).transfers,
       .ok (execCloseRecord outcome t m)⟩ := by
  have hpo : t.participantOptions ≠ [] := by
    intro hnil
    apply hwin
    unfold execWinners
    rw [hnil]
    rfl
  have hopt : execOptions t ≠ [] :=
    List.ne_nil_of_mem (List.mem_of_find?_eq_some hmatch)
  unfold executeToss
  rw [if_neg (by simp [hstatus])]
  rw [if_neg (by have := List.length_pos.mpr hparts; omega)]
  rw [if_neg (by simpa [List.length_eq_zero] using hpo)]
  rw [if_neg (by have := List.length_pos.mpr hopt; omega)]
  rw [hmatch]
  dsimp only
  rw [if_neg (by simpa [List.length_eq_zero] using hwin)]
  rfl

/-- On a waiting toss with participants and a matching winning option that
nobody picked, `executeToss` completes the toss with `paymentSuccess`
true and makes no transfer. -/
theorem executeToss_run_nowinners (outcome : String → TransferOutcome)
    (t : GroupTossName) (wo m : String)
    (hstatus : t.status = .WAITING_FOR_PLAYER)
    (hparts : t.participants ≠ []) (hpo : t.participantOptions ≠ [])
    (hmatch : execMatching t wo = some m)
    (hwin : execWinners t m = []) :
    executeToss true true outcome t wo =
      ⟨[{ t with status := TossStatus.IN_PROGRESS },
        { t with
          status := TossStatus.COMPLETED
          tossResult := m
          paymentSuccess := true }],
       [],
       .ok { t with
          status := TossStatus.COMPLETED
          tossResult := m
          paymentSuccess := true }⟩ := by
  have hopt : execOptions t ≠ [] :=
    List.ne_nil_of_mem (List.mem_of_find?_eq_some hmatch)
  unfold executeToss
  rw [if_neg (by simp [hstatus])]
  rw [if_neg (by have := List.length_pos.mpr hparts; omega)]
  rw [if_neg (by simpa [List.length_eq_zero] using hpo)]
  rw [if_neg (by have := List.length_pos.mpr hopt; omega)]
  rw [hmatch]
  dsimp only
  rw [if_pos (by simp [hwin])]

/-- The final record persisted by `forceCloseToss` on the refund path. -/
def forceCloseRecord (outcome : String → TransferOutcome)
    (t : GroupTossName) : GroupTossName :=
  let loop := transferLoop outcome t.tossAmount t.participants
  { t with
    status := TossStatus.CANCELLED
    paymentSuccess := true
    tossResult := "FORCE_CLOSED"
    transactionHash :=
      if t.transactionHash.isSome then t.transactionHash else loop.hash
    failedRefunds :=
      if 0 < loop.failed.length then loop.failed else t.failedRefunds }

/-- On a toss with participants, `forceCloseToss` runs the refund loop and
cancels the toss. -/
theorem forceCloseToss_run (outcome : String → TransferOutcome)
    (t : GroupTossName) (hparts : t.participants ≠ []) :
    forceCloseToss true true outcome t =
      ⟨[{ t with status := TossStatus.IN_PROGRESS },
        forceCloseRecord outcome t],
       (transferLoop outcome t.tossAmount t.participants).transfers,
       .ok (forceCloseRecord outcome t)⟩ := by
  unfold forceCloseToss
  dsimp only
  rw [if_neg (by simpa [List.length_eq_zero] using hparts)]
  rfl

/-! ### C4: the pot is conserved on `Close` -/

/-- C4: when Close distributes a toss with participants and at least one
winner (all with usable ids), each transfer call carries exactly
`stake × n / w`, and the sum of the successful payouts plus the pot share
of the recorded `failedWinners` equals `stake × n` — the pot is conserved
modulo recorded failures.  The "stake attributable" to a failed winner is
its undistributed prize share. -/
theorem C4_pot_conservation (outcome : String → TransferOutcome)
    (t : GroupTossName) (wo m : String)
    (hstatus : t.status = .WAITING_FOR_PLAYER) (hparts : t.participants ≠ [])
    (hmatch : execMatching t wo = some m) (hwin : execWinners t m ≠ [])
    (hids : ∀ p ∈ execWinners t m, p.inboxId ≠ "")
    (hfw : t.failedWinners = []) :
    ∃ t', (executeToss true true outcome t wo).result = .ok t' ∧
      t'.status = .COMPLETED ∧
      (∀ c ∈ (executeToss true true outcome t wo).transfers,
        c.2.1 = execPrize t m) ∧
      (((executeToss true true outcome t wo).transfers.filter
          (fun c => c.2.2)).map (fun c => c.2.1)).sum +
        (t'.failedWinners.length : ℚ) * execPrize t m =
        t.tossAmount * t.participants.length := by
  refine ⟨execCloseRecord outcome t m, ?_, rfl, ?_, ?_⟩
  · rw [executeToss_run outcome t wo m hstatus hparts hmatch hwin]
  · rw [executeToss_run outcome t wo m hstatus hparts hmatch hwin]
    exact transferLoop_transfer_amounts outcome (execPrize t m) _
  · rw [executeToss_run outcome t wo m hstatus hparts hmatch hwin]
    have hids' : ∀ p ∈ (execWinners t m).map Participant.inboxId, p ≠ "" := by
      intro p hp
      obtain ⟨q, hq, rfl⟩ := List.mem_map.mp hp
      exact hids q hq
    have hcount := transferLoop_counts outcome (execPrize t m)
      ((execWinners t m).map Participant.inboxId) hids'
    rw [List.length_map] at hcount
    have hsum := transferLoop_success_sum outcome (execPrize t m)
      ((execWinners t m).map Participant.inboxId)
    have hfwlen : (execCloseRecord outcome t m).failedWinners.length =
        (transferLoop outcome (execPrize t m)
          ((execWinners t m).map Participant.inboxId)).failed.length := by
      unfold execCloseRecord
      dsimp only
      split
      · rfl
      · next hz =>
        rw [hfw]
        simp only [List.length_nil]
        omega
    rw [hfwlen, hsum]
    have hwlen : ((execWinners t m).length : ℚ) ≠ 0 := by
      have := List.length_pos.mpr hwin
      exact_mod_cast Nat.pos_iff_ne_zero.mp this
    rw [← add_mul]
    rw [show ((transferLoop outcome (execPrize t m)
        ((execWinners t m).map Participant.inboxId)).succ.length : ℚ) +
        ((transferLoop outcome (execPrize t m)
        ((execWinners t m).map Participant.inboxId)).failed.length : ℚ) =
        ((execWinners t m).length : ℚ) by exact_mod_cast hcount]
    unfold execPrize
    field_simp

/-- A waiting toss with two participants on opposite options, stake 1. -/
def winnerToss : GroupTossName :=
  { id := "9", creator := "alice", tossAmount := 1,
    status := .WAITING_FOR_PLAYER, participants := ["alice", "bob"],
    participantOptions := [⟨"alice", "yes"⟩, ⟨"bob", "no"⟩],
    tossOptions := ["yes", "no"], walletAddress := "0xesc",
    tossResult := "", paymentSuccess := false, transactionHash := none,
    failedWinners := [], failedRefunds := [], conversationId := none }

/-- C4 witness: a two-participant toss at stake 1 where "alice" wins and
the transfer succeeds; the payout is 2 and the pot 2 × 1 is conserved. -/
theorem C4_pot_conservation_witness :
    ∃ t', (executeToss true true (fun _ => .transferOk none)
        winnerToss "yes").result = .ok t' ∧
      t'.status = .COMPLETED ∧
      (∀ c ∈ (executeToss true true (fun _ => .transferOk none)
          winnerToss "yes").transfers, c.2.1 = execPrize winnerToss "yes") ∧
      (((executeToss true true (fun _ => .transferOk none)
          winnerToss "yes").transfers.filter
          (fun c => c.2.2)).map (fun c => c.2.1)).sum +
        (t'.failedWinners.length : ℚ) * execPrize winnerToss "yes" =
        winnerToss.tossAmount * winnerToss.participants.length :=
  C4_pot_conservation (fun _ => .transferOk none) winnerToss "yes" "yes"
    rfl (by decide) (by decide) (by decide) (by decide) rfl

/-! ### C5: the `paymentSuccess` flag -/

/-- A waiting toss with a single participant, used to exhibit the
unconditional `paymentSuccess := true` of the force-close path. -/
def refundFailToss : GroupTossName :=
  { id := "5", creator := "bob", tossAmount := 1,
    status := .WAITING_FOR_PLAYER, participants := ["alice"],
    participantOptions := [⟨"alice", "yes"⟩], tossOptions := ["yes", "no"],
    walletAddress := "0xesc", tossResult := "", paymentSuccess := false,
    transactionHash := none, failedWinners := [], failedRefunds := [],
    conversationId := none }

/-- C5 counterexample: force-closing a one-participant toss whose only
refund transfer fails still records `paymentSuccess = true` — one transfer
was attempted, it failed, and no transfer succeeded, refuting the claimed
"if and only if". -/
theorem C5_counterexample :
    ((forceCloseToss true true (fun _ => .transferFailed)
      refundFailToss).result.toOption.map GroupTossName.paymentSuccess) =
      some true ∧
    (forceCloseToss true true (fun _ => .transferFailed)
      refundFailToss).transfers = [("alice", 1, false)] := by
  exact ⟨rfl, rfl⟩

/-- C5 (amended): on `Close` of a toss with at least one winner,
`paymentSuccess` is true exactly when at least one payout transfer
succeeded; on `Close` with zero winners the toss completes with
`paymentSuccess = true` and no transfers; any `ForceClose` that completes
its refund loop records `paymentSuccess = true` regardless of refund
outcomes; and a force-close with zero participants records
`paymentSuccess = true` with no transfers. -/
theorem C5_payment_success (outcome : String → TransferOutcome)
    (t : GroupTossName) (wo m : String) :
    (t.status = .WAITING_FOR_PLAYER → t.participants ≠ [] →
      execMatching t wo = some m → execWinners t m ≠ [] →
      ∃ t', (executeToss true true outcome t wo).result = .ok t' ∧
        (t'.paymentSuccess = true ↔
          ∃ c ∈ (executeToss true true outcome t wo).transfers,
            c.2.2 = true)) ∧
    (t.status = .WAITING_FOR_PLAYER → t.participants ≠ [] →
      t.participantOptions ≠ [] → execMatching t wo = some m →
      execWinners t m = [] →
      ∃ t', (executeToss true true outcome t wo).result = .ok t' ∧
        t'.paymentSuccess = true ∧
        (executeToss true true outcome t wo).transfers = []) ∧
    (t.participants ≠ [] →
      ∃ t', (forceCloseToss true true outcome t).result = .ok t' ∧
        t'.paymentSuccess = true) ∧
    (t.participants = [] →
      ∃ t', (forceCloseToss true true outcome t).result = .ok t' ∧
        t'.paymentSuccess = true ∧
        (forceCloseToss true true outcome t).transfers = []) := by
  refine ⟨?_, ?_, ?_, ?_⟩
  · intro h1 h2 h3 h4
    rw [executeToss_run outcome t wo m h1 h2 h3 h4]
    refine ⟨execCloseRecord outcome t m, rfl, ?_⟩
    unfold execCloseRecord
    dsimp only
    rw [decide_eq_true_eq]
    exact transferLoop_success_iff outcome (execPrize t m) _
  · intro h1 h2 h3 h4 h5
    rw [executeToss_run_nowinners outcome t wo m h1 h2 h3 h4 h5]
    exact ⟨_, rfl, rfl, rfl⟩
  · intro h1
    rw [forceCloseToss_run outcome t h1]
    exact ⟨forceCloseRecord outcome t, rfl, rfl⟩
  · intro h1
    unfold forceCloseToss
    dsimp only
    rw [if_pos (by simp [h1])]
    exact ⟨_, rfl, rfl, rfl⟩

/-- C5 witness: the amended flag theorem applied at the concrete
two-participant toss for closing and the concrete one-participant toss for
force-closing. -/
theorem C5_payment_success_witness :
    (∃ t', (executeToss true true (fun _ => .transferOk none)
        winnerToss "yes").result = .ok t' ∧
      (t'.paymentSuccess = true ↔
        ∃ c ∈ (executeToss true true (fun _ => .transferOk none)
          winnerToss "yes").transfers, c.2.2 = true)) ∧
    (∃ t', (forceCloseToss true true (fun _ => .transferOk none)
        refundFailToss).result = .ok t' ∧ t'.paymentSuccess = true) := by
  obtain ⟨p1, _, _, _⟩ :=
    C5_payment_success (fun _ => .transferOk none) winnerToss "yes" "yes"
  obtain ⟨_, _, p3, _⟩ :=
    C5_payment_success (fun _ => .transferOk none) refundFailToss "yes" "yes"
  exact ⟨p1 rfl (by decide) (by decide) (by decide), p3 (by decide)⟩

/-! ### C9: watcher block ranges and checkpointing -/

/-- Single-wallet scan invariant: every event reported by one scan of a
wallet whose checkpoint is at least `cp0 ≥ 1` has a block number above the
checkpoint, and the scan can only move the checkpoint to the scanned
head. -/
theorem checkWallet_step_events (chain : List TransactionEvent) (cp0 : ℕ)
    (ok : Bool) (w : MonitoredWallet) (head b : ℕ)
    (hb : w.lastCheckedBlock = some b) (hb0 : 0 < b) (hble : cp0 ≤ b) :
    (∀ q ∈ (checkWalletTransactions chain ok w head).2,
      cp0 < q.blockNumber ∧ b < q.blockNumber) ∧
    ((checkWalletTransactions chain ok w head).1.lastCheckedBlock = some b ∨
     (checkWalletTransactions chain ok w head).1.lastCheckedBlock =
       some head) := by
  have hfb : scanFromBlock w head = b := by
    unfold scanFromBlock
    rw [hb]
    exact if_neg (by omega)
  constructor
  · intro q hq
    unfold checkWalletTransactions at hq
    split at hq
    · unfold getLogs at hq
      have hpred := List.of_mem_filter hq
      rw [decide_eq_true_eq] at hpred
      rw [hfb] at hpred
      refine ⟨by omega, by omega⟩
    · simp at hq
  · unfold checkWalletTransactions
    split
    · right; rfl
    · left; exact hb

/-- Multi-tick invariant for one monitored wallet, generalized over the
accumulated event list. -/
theorem runTicks_no_stale_aux (chain : List TransactionEvent) (cp0 : ℕ)
    (h0 : 0 < cp0) (ticks : List (ℕ × Bool)) :
    ∀ (w : MonitoredWallet) (acc : List TransactionEvent),
      (∃ b, w.lastCheckedBlock = some b ∧ 0 < b ∧ cp0 ≤ b) →
      (∀ p ∈ ticks, cp0 ≤ p.1) →
      (∀ e ∈ acc, cp0 < e.blockNumber) →
      ∀ e ∈ (ticks.foldl
        (fun acc2 tick =>
          let step := checkWalletTransactions chain tick.2 acc2.1 tick.1
          (step.1, acc2.2 ++ step.2)) (w, acc)).2,
        cp0 < e.blockNumber := by
  induction ticks with
  | nil =>
    intro w acc _ _ hacc e he
    exact hacc e he
  | cons tk ticks ih =>
    rintro w acc ⟨b, hb, hb0, hble⟩ hticks hacc e he
    rw [List.foldl_cons] at he
    have hhead : cp0 ≤ tk.1 := hticks tk (List.mem_cons_self tk ticks)
    obtain ⟨hev, hcpt⟩ :=
      checkWallet_step_events chain cp0 tk.2 w tk.1 b hb hb0 hble
    refine ih _ _ ?_ (fun p hp => hticks p (List.mem_cons_of_mem tk hp)) ?_ e he
    · rcases hcpt with h | h
      · exact ⟨b, h, hb0, hble⟩
      · exact ⟨tk.1, h, by omega, hhead⟩
    · intro q hq
      rcases List.mem_append.mp hq with h | h
      · exact hacc q h
      · exact (hev q h).1

/-- C9: a scan of a monitored wallet whose checkpoint is a positive block
`cp` queries Transfer logs exactly over the block range `(cp, head]` and
advances the checkpoint to `head`; a failed per-wallet scan reports
nothing and leaves the checkpoint unchanged; and across any sequence of
polling ticks whose heads are at least the head observed when the wallet
was added, no transfer with block number at most that initial checkpoint
is ever reported. -/
theorem C9_watcher_checkpointing (chain : List TransactionEvent)
    (w : MonitoredWallet) (cp head : ℕ)
    (hcp : w.lastCheckedBlock = some cp) (hcpPos : 0 < cp)
    (addr tossId : String) (head0 : ℕ) (h0 : 0 < head0)
    (ticks : List (ℕ × Bool)) (hticks : ∀ p ∈ ticks, head0 ≤ p.1) :
    (checkWalletTransactions chain true w head =
      ({ w with lastCheckedBlock := some head },
       chain.filter fun e =>
         decide (e.txTo = w.address ∧ cp < e.blockNumber ∧
           e.blockNumber ≤ head))) ∧
    checkWalletTransactions chain false w head = (w, []) ∧
    (∀ e ∈ (runTicks chain (addWalletToMonitor head0 addr tossId)
        ticks).2, head0 < e.blockNumber) := by
  have hfb : scanFromBlock w head = cp := by
    unfold scanFromBlock
    rw [hcp]
    exact if_neg (by omega)
  refine ⟨?_, ?_, ?_⟩
  · unfold checkWalletTransactions
    rw [if_pos rfl, hfb]
    refine congrArg _ ?_
    unfold getLogs
    apply List.filter_congr
    intro e _
    rw [decide_eq_decide]
    constructor
    · rintro ⟨h1, h2, h3⟩
      exact ⟨h1, by omega, h3⟩
    · rintro ⟨h1, h2, h3⟩
      exact ⟨h1, by omega, h3⟩
  · rfl
  · unfold runTicks
    exact runTicks_no_stale_aux chain head0 h0 ticks
      (addWalletToMonitor head0 addr tossId) []
      ⟨head0, rfl, h0, le_refl head0⟩ hticks (by intro e he; simp at he)

/-- A two-event chain for the watcher witness: one transfer at block 6 and
one stale transfer at block 3, both to the monitored address. -/
def c9chain : List TransactionEvent :=
  [⟨"0xh1", "0xa", "0xw", 1000001, 6⟩, ⟨"0xh2", "0xb", "0xw", 1000002, 3⟩]

/-- The monitored wallet for the watcher witness, checkpointed at block
5. -/
def c9wallet : MonitoredWallet := ⟨"0xw", "1", some 5⟩

/-- C9 witness: the checkpointing theorem applied to the concrete chain,
wallet, head 10, and the tick sequence [(6, ok), (7, failed)]. -/
theorem C9_watcher_checkpointing_witness :
    (checkWalletTransactions c9chain true c9wallet 10 =
      ({ c9wallet with lastCheckedBlock := some 10 },
       c9chain.filter fun e =>
         decide (e.txTo = c9wallet.address ∧ 5 < e.blockNumber ∧
           e.blockNumber ≤ 10))) ∧
    checkWalletTransactions c9chain false c9wallet 10 = (c9wallet, []) ∧
    (∀ e ∈ (runTicks c9chain (addWalletToMonitor 5 "0xW" "1")
        [(6, true), (7, false)]).2, 5 < e.blockNumber) :=
  C9_watcher_checkpointing c9chain c9wallet 5 10 rfl (by decide) "0xW" "1"
    5 (by decide) [(6, true), (7, false)] (by decide)

/-! ### C10: ERC-20 calldata round trip -/

/-- Parsing a hex digit character produced by `hexChar` recovers the
digit, for digits below 16. -/
theorem hexVal_hexChar : ∀ d < 16, hexVal? (hexChar d) = some d := by
  decide

/-- Every character of a rendered hex string is a hex digit. -/
theorem toHexString_all_hex (n : ℕ) :
    ∀ c ∈ toHexString n, (hexVal? c).isSome = true := by
  intro c hc
  unfold toHexString at hc
  split at hc
  · simp at hc
    subst hc
    rfl
  · rw [List.mem_reverse] at hc
    obtain ⟨d, hd, rfl⟩ := List.mem_map.mp hc
    have hd16 : d < 16 := Nat.digits_lt_base (by norm_num) hd
    rw [hexVal_hexChar d hd16]
    rfl

/-- A number below `16 ^ 64` renders to at most 64 hex digits. -/
theorem toHexString_length_le (n : ℕ) (h : n < 16 ^ 64) :
    (toHexString n).length ≤ 64 := by
  unfold toHexString
  split
  · simp
  · next hn =>
    rw [List.length_reverse, List.length_map]
    by_contra hlen
    push_neg at hlen
    have h1 : 16 ^ (Nat.digits 16 n).length ≤ 16 * n :=
      Nat.base_pow_length_digits_le 16 n (by norm_num) hn
    have h3 : 16 * 16 ^ 64 ≤ 16 * n := by
      calc 16 * 16 ^ 64 = 16 ^ 65 := by ring
        _ ≤ 16 ^ (Nat.digits 16 n).length :=
          Nat.pow_le_pow_right (by norm_num) (by omega)
        _ ≤ 16 * n := h1
    have h4 : 16 ^ 64 ≤ n := Nat.le_of_mul_le_mul_left h3 (by norm_num)
    omega

/-- Leading zero characters do not change the parsed hex value. -/
theorem parse_foldl_zeros (l : List Char) (k : ℕ) :
    (List.replicate k '0' ++ l).foldl
      (fun a c => 16 * a + (hexVal? c).getD 0) 0 =
      l.foldl (fun a c => 16 * a + (hexVal? c).getD 0) 0 := by
  induction k with
  | zero => rfl
  | succ k ih => simpa [List.replicate_succ] using ih

/-- Folding the reversed hex rendering of a little-endian digit list
computes the base-16 value of the digits. -/
theorem foldl_hex_digits (ds : List ℕ) (hds : ∀ d ∈ ds, d < 16) (a : ℕ) :
    ((ds.map hexChar).reverse).foldl
      (fun x c => 16 * x + (hexVal? c).getD 0) a =
      a * 16 ^ ds.length + Nat.ofDigits 16 ds := by
  induction ds generalizing a with
  | nil => simp
  | cons d ds ih =>
    have hd : d < 16 := hds d (List.mem_cons_self d ds)
    have hds' : ∀ x ∈ ds, x < 16 := fun x hx =>
      hds x (List.mem_cons_of_mem d hx)
    rw [List.map_cons, List.reverse_cons, List.foldl_append, ih hds']
    simp only [List.foldl_cons, List.foldl_nil, hexVal_hexChar d hd,
      Option.getD_some, Nat.ofDigits_cons, List.length_cons]
    ring

/-- Zero-padding the hex rendering of a number below `16 ^ 64` to 64
characters and parsing it back recovers the number. -/
theorem parseHex_leftPad_toHex (n : ℕ) (h : n < 16 ^ 64) :
    parseHexNat? (leftPad 64 '0' (toHexString n)) = some n := by
  have hlen : (toHexString n).length ≤ 64 := toHexString_length_le n h
  have hlenpad : (leftPad 64 '0' (toHexString n)).length = 64 := by
    unfold leftPad
    rw [List.length_append, List.length_replicate]
    omega
  have hall : (leftPad 64 '0' (toHexString n)).all
      (fun c => (hexVal? c).isSome) = true := by
    rw [List.all_eq_true]
    intro c hc
    unfold leftPad at hc
    rcases List.mem_append.mp hc with h' | h'
    · rw [List.eq_of_mem_replicate h']
      rfl
    · exact toHexString_all_hex n c h'
  unfold parseHexNat?
  rw [hlenpad, if_neg (by omega), if_pos hall]
  congr 1
  unfold leftPad
  rw [parse_foldl_zeros]
  unfold toHexString
  split
  · next h0 =>
    simp [h0, hexVal?]
  · have hfold := foldl_hex_digits (Nat.digits 16 n)
      (fun d hd => Nat.digits_lt_base (by norm_num) hd) 0
    rw [hfold, Nat.ofDigits_digits]
    ring

/-- C10: for every `0x`-prefixed 40-hex-digit recipient address and every
minor-unit amount of USDC value at most 10, `extractERC20TransferData`
applied to the calldata built by `createUSDCTransferCalls` returns exactly
that recipient and that amount: extraction is a left inverse of the
payment-intent calldata construction. -/
theorem C10_calldata_roundtrip (r : List Char) (amount : ℕ)
    (hlen : r.length = 40) (hhex : ∀ c ∈ r, (hexVal? c).isSome = true)
    (hamt : amount ≤ 10 * 10 ^ 6) :
    ∃ d, createUSDCTransferCalls ('0' :: 'x' :: r) amount = some d ∧
      extractERC20TransferData d = some ⟨'0' :: 'x' :: r, amount⟩ := by
  have hamt16 : amount < 16 ^ 64 := lt_of_le_of_lt hamt (by norm_num)
  set A := leftPad 64 '0' (('0' :: 'x' :: r).drop 2) with hA
  set B := leftPad 64 '0' (toHexString amount) with hB
  have hAeq : A = List.replicate 24 '0' ++ r := by
    rw [hA]
    show leftPad 64 '0' r = _
    unfold leftPad
    rw [hlen]
  have hAlen : A.length = 64 := by
    rw [hAeq, List.length_append, List.length_replicate, hlen]
  have hBlen : B.length = 64 := by
    have := toHexString_length_le amount hamt16
    rw [hB]
    unfold leftPad
    rw [List.length_append, List.length_replicate]
    omega
  refine ⟨transferSelector ++ A ++ B, ?_, ?_⟩
  · unfold createUSDCTransferCalls
    rw [if_neg (by omega)]
  · unfold extractERC20TransferData
    have hsel : (transferSelector ++ (A ++ B)).take 10 = transferSelector :=
      List.take_left' rfl
    rw [List.append_assoc, hsel, if_pos rfl]
    have hdrop10 : (transferSelector ++ (A ++ B)).drop 10 = A ++ B :=
      List.drop_left' rfl
    have htake64 : (A ++ B).take 64 = A := List.take_left' hAlen
    have hdrop74 : (transferSelector ++ (A ++ B)).drop 74 = B := by
      rw [← List.append_assoc]
      exact List.drop_left' (by rw [List.length_append, hAlen]; rfl)
    have htakeB : B.take 64 = B := by
      conv_lhs => rw [← hBlen]
      exact List.take_length B
    dsimp only
    rw [hdrop10, htake64, hdrop74, htakeB]
    have hrec : (['0', 'x'] ++ A).drop ((['0', 'x'] ++ A).length - 40) =
        r := by
      rw [hAeq, ← List.append_assoc]
      rw [show (['0', 'x'] ++ List.replicate 24 '0' ++ r).length - 40 =
        (['0', 'x'] ++ List.replicate 24 '0').length by
          simp [List.length_append, hlen]]
      exact List.drop_left _ r
    rw [hrec]
    rw [hB, parseHex_leftPad_toHex amount hamt16]
    rfl

/-- C10 witness: the round trip at the 40-digit address `aa…a` and the
amount 1000001 (1 USDC plus the option-1 tag). -/
theorem C10_calldata_roundtrip_witness :
    ∃ d, createUSDCTransferCalls
        ('0' :: 'x' :: List.replicate 40 'a') 1000001 = some d ∧
      extractERC20TransferData d =
        some ⟨'0' :: 'x' :: List.replicate 40 'a', 1000001⟩ :=
  C10_calldata_roundtrip (List.replicate 40 'a') 1000001
    (by simp) (by intro c hc; rw [List.eq_of_mem_replicate hc]; rfl)
    (by norm_num)

end GroupToss
